import Mathlib

/-!
Shallow embedding of the procedural cabinet fixtures of
`robocasa/models/fixtures/cabinets.py` (classes `Cabinet`, `SingleCabinet`,
`HingeCabinet`, `OpenCabinet`, `Drawer`, `HousingCabinet`).

Geometry (bounding sites, shelf placement, reset regions, housing padding
resolution) is embedded over `ℚ`; the kinematic state mappers
(`set_door_state` / `get_door_state`), which involve `np.pi`, are embedded
over `ℝ`.  The mujoco simulation state is a map from joint names to values;
`rng.uniform(a, b)` is modelled by an externally supplied unit sample
`u ∈ [0, 1]` as `a + (b - a) * u`, so `uniform a a u = a`.  A Python
`assert` / `raise` is modelled by returning `none`.
-/

namespace RoboCasa

/-! ## Bounding sites (geometry over ℚ) -/

/-- A point in the fixture's local frame. -/
structure Vec3 where
  x : ℚ
  y : ℚ
  z : ℚ
deriving DecidableEq

/-- The eight named bounding sites a fixture publishes via
`set_bounds_sites`: four exterior corners and four interior corners. -/
structure BoundsSites where
  ext_p0 : Vec3
  ext_px : Vec3
  ext_py : Vec3
  ext_pz : Vec3
  int_p0 : Vec3
  int_px : Vec3
  int_py : Vec3
  int_pz : Vec3
deriving DecidableEq

/-- Strict betweenness of one coordinate. -/
def strictlyBetween (lo v hi : ℚ) : Prop := lo < v ∧ v < hi

/-- A point lies strictly inside the exterior box of the sites: on each
axis its coordinate is strictly between the exterior extremes
(`ext_p0` to `ext_px` / `ext_py` / `ext_pz`). -/
def pointInsideExt (b : BoundsSites) (p : Vec3) : Prop :=
  strictlyBetween b.ext_p0.x p.x b.ext_px.x ∧
  strictlyBetween b.ext_p0.y p.y b.ext_py.y ∧
  strictlyBetween b.ext_p0.z p.z b.ext_pz.z

/-- Every interior bounding site lies strictly inside the exterior box. -/
def intInsideExt (b : BoundsSites) : Prop :=
  pointInsideExt b b.int_p0 ∧ pointInsideExt b b.int_px ∧
  pointInsideExt b b.int_py ∧ pointInsideExt b b.int_pz

/-- Bounding sites of `SingleCabinet._create_cab` for size `[w, d, h]` and
wall thickness `t`: the source halves every dimension
(`x, y, z = dim / 2`, `th = thickness / 2`) and publishes
`ext_p0 = [-x, -y, -z]`, ..., `int_p0 = [-x + 2 th, -y + 2 th, -z + 2 th]`, etc. -/
def SingleCabinet.boundsSites (w d h t : ℚ) : BoundsSites :=
  { ext_p0 := ⟨-(w/2), -(d/2), -(h/2)⟩
    ext_px := ⟨w/2, -(d/2), -(h/2)⟩
    ext_py := ⟨-(w/2), d/2, -(h/2)⟩
    ext_pz := ⟨-(w/2), -(d/2), h/2⟩
    int_p0 := ⟨-(w/2) + 2*(t/2), -(d/2) + 2*(t/2), -(h/2) + 2*(t/2)⟩
    int_px := ⟨w/2 - 2*(t/2), -(d/2) + 2*(t/2), -(h/2) + 2*(t/2)⟩
    int_py := ⟨-(w/2) + 2*(t/2), d/2 - 2*(t/2), -(h/2) + 2*(t/2)⟩
    int_pz := ⟨-(w/2) + 2*(t/2), -(d/2) + 2*(t/2), h/2 - 2*(t/2)⟩ }

/-- Bounding sites of `HingeCabinet._create_cab`: textually the same site
formulas as the single cabinet (halved dimensions). -/
def HingeCabinet.boundsSites (w d h t : ℚ) : BoundsSites :=
  { ext_p0 := ⟨-(w/2), -(d/2), -(h/2)⟩
    ext_px := ⟨w/2, -(d/2), -(h/2)⟩
    ext_py := ⟨-(w/2), d/2, -(h/2)⟩
    ext_pz := ⟨-(w/2), -(d/2), h/2⟩
    int_p0 := ⟨-(w/2) + 2*(t/2), -(d/2) + 2*(t/2), -(h/2) + 2*(t/2)⟩
    int_px := ⟨w/2 - 2*(t/2), -(d/2) + 2*(t/2), -(h/2) + 2*(t/2)⟩
    int_py := ⟨-(w/2) + 2*(t/2), d/2 - 2*(t/2), -(h/2) + 2*(t/2)⟩
    int_pz := ⟨-(w/2) + 2*(t/2), -(d/2) + 2*(t/2), h/2 - 2*(t/2)⟩ }

/-- Bounding sites of `OpenCabinet._create_cab`: the source does NOT halve
the size here (`x, y, z = self.size`, `th = self.thickness`) and publishes
`ext_p0 = [-x, -y, -z]`, ..., `int_p0 = [-x + 2 th, ...]`, etc. -/
def OpenCabinet.boundsSites (w d h t : ℚ) : BoundsSites :=
  { ext_p0 := ⟨-w, -d, -h⟩
    ext_px := ⟨w, -d, -h⟩
    ext_py := ⟨-w, d, -h⟩
    ext_pz := ⟨-w, -d, h⟩
    int_p0 := ⟨-w + 2*t, -d + 2*t, -h + 2*t⟩
    int_px := ⟨w - 2*t, -d + 2*t, -h + 2*t⟩
    int_py := ⟨-w + 2*t, d - 2*t, -h + 2*t⟩
    int_pz := ⟨-w + 2*t, -d + 2*t, h - 2*t⟩ }

/-- Bounding sites of `Drawer._create_cab`: with halved dimensions
`x, y, z` and `th`, the inner box has `ix = x - 2 th - 0.001`,
`iy = y - 2 th`, `iz = z - 2 th - 0.001`, and the interior sites are
`int_p0 = [-ix + 2 th, -iy, -iz + 2 th]`, `int_px = [ix - 2 th, -iy, -iz + 2 th]`,
`int_py = [-ix + 2 th, iy - 2 th, -iz + 2 th]`, `int_pz = [-ix + 2 th, -iy, iz]`. -/
def Drawer.boundsSites (w d h t : ℚ) : BoundsSites :=
  let x := w/2
  let y := d/2
  let z := h/2
  let th := t/2
  let ix := x - 2*th - 1/1000
  let iy := y - 2*th
  let iz := z - 2*th - 1/1000
  { ext_p0 := ⟨-x, -y, -z⟩
    ext_px := ⟨x, -y, -z⟩
    ext_py := ⟨-x, y, -z⟩
    ext_pz := ⟨-x, -y, z⟩
    int_p0 := ⟨-ix + 2*th, -iy, -iz + 2*th⟩
    int_px := ⟨ix - 2*th, -iy, -iz + 2*th⟩
    int_py := ⟨-ix + 2*th, iy - 2*th, -iz + 2*th⟩
    int_pz := ⟨-ix + 2*th, -iy, iz⟩ }

/-- Bounding sites of `HousingCabinet._create_cab` for size `[w, d, h]`
and resolved padding `[[p00, p01], [p10, p11], [p20, p21]]`: each interior
face is inset from the matching exterior face by its own padding value. -/
def HousingCabinet.boundsSites (w d h p00 p01 p10 p11 p20 p21 : ℚ) : BoundsSites :=
  let x := w/2
  let y := d/2
  let z := h/2
  { ext_p0 := ⟨-x, -y, -z⟩
    ext_px := ⟨x, -y, -z⟩
    ext_py := ⟨-x, y, -z⟩
    ext_pz := ⟨-x, -y, z⟩
    int_p0 := ⟨-x + p00, -y + p10, -z + p20⟩
    int_px := ⟨x - p01, -y + p10, -z + p20⟩
    int_py := ⟨-x + p00, y - p11, -z + p20⟩
    int_pz := ⟨-x + p00, -y + p10, z - p21⟩ }

/-! ## Open shelving: shelf heights (`OpenCabinet._create_cab`) -/

/-- Shelf centre height `i` of `OpenCabinet._create_cab` for `N` shelves,
overall height `h` and thickness `t`:
`np.linspace(start=th/2, stop=z - th/2, num=N, endpoint=False) - z/2`,
whose `i`-th entry is `start + i * (stop - start) / N - z/2`. -/
def OpenCabinet.shelfZ (N : ℕ) (h t : ℚ) (i : ℕ) : ℚ :=
  t/2 + (i : ℚ) * (((h - t/2) - t/2) / (N : ℚ)) - h/2

/-! ## Theorems for shelf placement and bounding-site containment -/

/-- C4 counterexample: for `N = 2` shelves, height `1`, thickness `1/10`,
the last shelf centre is at `0`, not at `h/2 - t/2 = 9/20`: the last shelf
does not sit half-thickness below the top. -/
theorem OpenCabinet.shelfZ_last_not_half_thickness_below_top :
    ¬ OpenCabinet.shelfZ 2 1 (1/10) 1 = 1/2 - (1/10)/2 := by
  norm_num [OpenCabinet.shelfZ]

/-- C4 (amended): for open shelving with `N ≥ 1` shelves, height `h` and
thickness `t`, the first shelf centre is offset `t/2` above the bottom
`-h/2`, consecutive shelves are spaced by `(h - t)/N`, and the last shelf
centre sits `(h - t)/N + t/2` below the top `h/2` (one bay spacing plus
half-thickness, not half-thickness alone). -/
theorem OpenCabinet.shelfZ_spacing (N : ℕ) (h t : ℚ) (hN : 1 ≤ N) :
    OpenCabinet.shelfZ N h t 0 = -(h/2) + t/2
    ∧ (∀ i : ℕ, OpenCabinet.shelfZ N h t (i+1) - OpenCabinet.shelfZ N h t i
        = (h - t) / (N : ℚ))
    ∧ OpenCabinet.shelfZ N h t (N - 1) = h/2 - ((h - t) / (N : ℚ) + t/2) := by
  have hpos : 0 < N := hN
  have hN0 : (N : ℚ) ≠ 0 := by
    exact_mod_cast hpos.ne'
  refine ⟨?_, ?_, ?_⟩
  · simp [OpenCabinet.shelfZ]
    ring
  · intro i
    unfold OpenCabinet.shelfZ
    push_cast
    ring
  · unfold OpenCabinet.shelfZ
    have hcast : ((N - 1 : ℕ) : ℚ) = (N : ℚ) - 1 := by
      push_cast [Nat.cast_sub hN]
      ring
    rw [hcast]
    field_simp
    ring

/-- C4 witness: the amended spacing facts evaluated at `N = 2`, `h = 1`,
`t = 1/10`. -/
theorem OpenCabinet.shelfZ_spacing_witness :
    OpenCabinet.shelfZ 2 1 (1/10) 0 = -(1/2) + (1/10)/2
    ∧ (∀ i : ℕ, OpenCabinet.shelfZ 2 1 (1/10) (i+1) - OpenCabinet.shelfZ 2 1 (1/10) i
        = (1 - 1/10) / (2 : ℚ))
    ∧ OpenCabinet.shelfZ 2 1 (1/10) (2 - 1) = 1/2 - ((1 - 1/10) / (2 : ℚ) + (1/10)/2) :=
  OpenCabinet.shelfZ_spacing 2 1 (1/10) (by norm_num)

/-- C6 counterexample: a `SingleCabinet` with size `[1/100, 1, 1]` and the
default thickness `3/100` (all positive, hence a valid spec per the claim)
has its interior site `int_p0` at `x = 1/40`, outside the exterior range
`(-1/200, 1/200)`: the interior box is not strictly inside the exterior box. -/
theorem SingleCabinet.intInsideExt_fails_for_thick_walls :
    ¬ RoboCasa.intInsideExt (SingleCabinet.boundsSites (1/100) 1 1 (3/100)) := by
  norm_num [RoboCasa.intInsideExt, pointInsideExt, strictlyBetween, SingleCabinet.boundsSites]

/-- C6 (amended): every fixture variant that publishes bounding sites has
its interior box strictly inside its exterior box, provided the wall
thickness is positive and small enough for the variant: `t` less than every
size component for the single, hinge and open cabinets; `2 t` (plus the
`1/1000` inner-box clearance on width and height) less than the size for
the drawer; and every housing padding strictly between `0` and the full
size on its axis. -/
theorem intInsideExt_of_valid_spec
    (w d h t p00 p01 p10 p11 p20 p21 : ℚ) :
    (0 < t → t < w → t < d → t < h →
      RoboCasa.intInsideExt (SingleCabinet.boundsSites w d h t)
      ∧ RoboCasa.intInsideExt (HingeCabinet.boundsSites w d h t)
      ∧ RoboCasa.intInsideExt (OpenCabinet.boundsSites w d h t))
    ∧ (0 < t → 2*t + 1/1000 < w → 2*t < d → 2*t + 1/1000 < h →
      RoboCasa.intInsideExt (Drawer.boundsSites w d h t))
    ∧ (0 < p00 → p00 < w → 0 < p01 → p01 < w → 0 < p10 → p10 < d →
       0 < p11 → p11 < d → 0 < p20 → p20 < h → 0 < p21 → p21 < h →
      RoboCasa.intInsideExt (HousingCabinet.boundsSites w d h p00 p01 p10 p11 p20 p21)) := by
  refine ⟨fun h1 h2 h3 h4 => ⟨?_, ?_, ?_⟩, fun h1 h2 h3 h4 => ?_,
    fun q1 q2 q3 q4 q5 q6 q7 q8 q9 q10 q11 q12 => ?_⟩
  · simp only [RoboCasa.intInsideExt, pointInsideExt, strictlyBetween,
      SingleCabinet.boundsSites]
    repeat' apply And.intro
    all_goals linarith
  · simp only [RoboCasa.intInsideExt, pointInsideExt, strictlyBetween,
      HingeCabinet.boundsSites]
    repeat' apply And.intro
    all_goals linarith
  · simp only [RoboCasa.intInsideExt, pointInsideExt, strictlyBetween,
      OpenCabinet.boundsSites]
    repeat' apply And.intro
    all_goals linarith
  · simp only [RoboCasa.intInsideExt, pointInsideExt, strictlyBetween,
      Drawer.boundsSites]
    repeat' apply And.intro
    all_goals linarith
  · simp only [RoboCasa.intInsideExt, pointInsideExt, strictlyBetween,
      HousingCabinet.boundsSites]
    repeat' apply And.intro
    all_goals linarith

/-- C6 witness: containment evaluated for all five variants at the concrete
spec `w = d = h = 1`, `t = 3/100`, housing padding `1/10` everywhere. -/
theorem intInsideExt_of_valid_spec_witness :
    RoboCasa.intInsideExt (SingleCabinet.boundsSites 1 1 1 (3/100))
    ∧ RoboCasa.intInsideExt (HingeCabinet.boundsSites 1 1 1 (3/100))
    ∧ RoboCasa.intInsideExt (OpenCabinet.boundsSites 1 1 1 (3/100))
    ∧ RoboCasa.intInsideExt (Drawer.boundsSites 1 1 1 (3/100))
    ∧ RoboCasa.intInsideExt
        (HousingCabinet.boundsSites 1 1 1 (1/10) (1/10) (1/10) (1/10) (1/10) (1/10)) := by
  have h := intInsideExt_of_valid_spec 1 1 1 (3/100) (1/10) (1/10) (1/10) (1/10) (1/10) (1/10)
  have h1 := h.1 (by norm_num) (by norm_num) (by norm_num) (by norm_num)
  have h2 := h.2.1 (by norm_num) (by norm_num) (by norm_num) (by norm_num)
  have h3 := h.2.2 (by norm_num) (by norm_num) (by norm_num) (by norm_num) (by norm_num)
    (by norm_num) (by norm_num) (by norm_num) (by norm_num) (by norm_num) (by norm_num)
    (by norm_num)
  exact ⟨h1.1, h1.2.1, h1.2.2, h2, h3⟩

/-! ## Housing cabinet: per-axis size/padding resolution
(`HousingCabinet.__init__`) -/

/-- The small floating-point cleanup of `HousingCabinet.__init__`:
`padding[d] = [i if abs(i) > 0.000001 else 0 for i in padding[d]]`. -/
def roundPad (p : ℚ) : ℚ := if 1/1000000 < |p| then p else 0

/-- The validation step following the per-axis resolution in
`HousingCabinet.__init__`: round near-zero paddings, then raise
(`none`) when `size[d] < 0 or padding[d][1] < 0 or (d != 1 and
padding[d][0] < 0)`. -/
def HousingCabinet.checkAxis (d : ℕ) (S p0 p1 : ℚ) : Option (ℚ × ℚ × ℚ) :=
  if S < 0 ∨ roundPad p1 < 0 ∨ (d ≠ 1 ∧ roundPad p0 < 0) then none
  else some (S, roundPad p0, roundPad p1)

/-- Per-axis size/padding resolution of `HousingCabinet.__init__` for axis
`d` with interior-object extent `s`: `none` models a raised
`ValueError` / failed `assert`; `some (S, p0, p1)` is the resolved full
size and the two resolved paddings. -/
def HousingCabinet.resolveAxis (d : ℕ) (s : ℚ) (size? p0? p1? : Option ℚ) :
    Option (ℚ × ℚ × ℚ) :=
  match size?, p0?, p1? with
  | none, some p0, some p1 => HousingCabinet.checkAxis d (p0 + p1 + s) p0 p1
  | none, _, _ => none
  | some S, none, none => HousingCabinet.checkAxis d S ((S - s)/2) ((S - s)/2)
  | some S, none, some p1 => HousingCabinet.checkAxis d S (S - s - p1) p1
  | some S, some p0, none => HousingCabinet.checkAxis d S p0 (S - s - p0)
  | some S, some p0, some p1 =>
      if S = p0 + p1 + s then HousingCabinet.checkAxis d S p0 p1 else none

/-- Rounding a padding moves it by at most `1/1000000`. -/
theorem abs_roundPad_sub_le (p : ℚ) : |roundPad p - p| ≤ 1/1000000 := by
  unfold roundPad
  split_ifs with hp
  · simp
  · push_neg at hp
    rw [abs_sub_comm]
    simpa using hp

/-- Rounding both paddings of an axis whose exact sum is `S` keeps the sum
within `2/1000000` of `S`. -/
theorem roundPad_sum_close (a b S s : ℚ) (h : a + b + s = S) :
    |roundPad a + roundPad b + s - S| ≤ 2/1000000 := by
  have ha := abs_roundPad_sub_le a
  have hb := abs_roundPad_sub_le b
  have heq : roundPad a + roundPad b + s - S = (roundPad a - a) + (roundPad b - b) := by
    rw [← h]; ring
  rw [heq]
  calc |(roundPad a - a) + (roundPad b - b)|
      ≤ |roundPad a - a| + |roundPad b - b| := abs_add _ _
    _ ≤ 1/1000000 + 1/1000000 := add_le_add ha hb
    _ = 2/1000000 := by norm_num

/-- C5 counterexample: axis `d = 0`, interior extent `s = 1`, full size
`S = 2`, only the second padding given as `1/2000000`.  The derived first
padding is `1999999/2000000`, the given one is rounded to `0`, the
resolution succeeds, and the resolved values satisfy
`p0 + p1 + s = 3999999/2000000 ≠ 2 = S`: the exact equation fails. -/
theorem HousingCabinet.resolveAxis_rounding_breaks_equation :
    HousingCabinet.resolveAxis 0 1 (some 2) none (some (1/2000000))
      = some (2, 1999999/2000000, 0)
    ∧ ¬ (1999999/2000000 + 0 + 1 = (2 : ℚ)) := by
  have h1 : |(1:ℚ)/2000000| = 1/2000000 := abs_of_nonneg (by norm_num)
  have h2 : |(2:ℚ) - 1 - 1/2000000| = 2 - 1 - 1/2000000 := abs_of_nonneg (by norm_num)
  have h3 : |(1999999:ℚ)/2000000| = 1999999/2000000 := abs_of_nonneg (by norm_num)
  constructor
  · norm_num [HousingCabinet.resolveAxis, HousingCabinet.checkAxis, roundPad, h1, h2, h3]
  · norm_num

/-- Inversion for `HousingCabinet.checkAxis`: a successful check passes
the size through and rounds each padding. -/
theorem HousingCabinet.checkAxis_some (d : ℕ) (X p0 p1 S q0 q1 : ℚ)
    (h : HousingCabinet.checkAxis d X p0 p1 = some (S, q0, q1)) :
    S = X ∧ q0 = roundPad p0 ∧ q1 = roundPad p1 := by
  unfold HousingCabinet.checkAxis at h
  split_ifs at h
  simp only [Option.some.injEq, Prod.mk.injEq] at h
  exact ⟨h.1.symm, h.2.1.symm, h.2.2.symm⟩

/-- C5 (amended): on each axis independently the resolved padding and size
satisfy `p0 + p1 + s = S` up to the near-zero padding rounding (within
`2/1000000`; exactly before rounding): when the full size is given with no
padding both paddings are `(S - s)/2` (rounded); when the size and one
padding are given the other is `S - s` minus the given one (rounded); when
the size is omitted both paddings must be supplied — otherwise resolution
fails — and the size is derived as `p0 + p1 + s`; when everything is
supplied the equation is validated and resolution fails when it does not
hold exactly. -/
theorem HousingCabinet.resolveAxis_padding_consistency
    (d : ℕ) (s : ℚ) (size? p0? p1? : Option ℚ) :
    (∀ S p0 p1, HousingCabinet.resolveAxis d s size? p0? p1? = some (S, p0, p1) →
      |p0 + p1 + s - S| ≤ 2/1000000
      ∧ (size? = none → ∃ a b, p0? = some a ∧ p1? = some b ∧ S = a + b + s)
      ∧ (∀ a, size? = some a → S = a)
      ∧ (size? = some S → p0? = none → p1? = none →
          p0 = roundPad ((S - s)/2) ∧ p1 = roundPad ((S - s)/2))
      ∧ (∀ a, size? = some S → p0? = some a → p1? = none →
          p0 = roundPad a ∧ p1 = roundPad (S - s - a))
      ∧ (∀ b, size? = some S → p0? = none → p1? = some b →
          p0 = roundPad (S - s - b) ∧ p1 = roundPad b))
    ∧ (size? = none → (p0? = none ∨ p1? = none) →
        HousingCabinet.resolveAxis d s size? p0? p1? = none)
    ∧ (∀ a b c, size? = some a → p0? = some b → p1? = some c → a ≠ b + c + s →
        HousingCabinet.resolveAxis d s size? p0? p1? = none) := by
  refine ⟨?_, ?_, ?_⟩
  · intro S p0 p1 h
    rcases size? with _ | Sg <;> rcases p0? with _ | a <;> rcases p1? with _ | b <;>
      simp only [HousingCabinet.resolveAxis] at h
    · exact Option.noConfusion h
    · exact Option.noConfusion h
    · exact Option.noConfusion h
    · obtain ⟨hS, hp0, hp1⟩ := HousingCabinet.checkAxis_some _ _ _ _ _ _ _ h
      subst hS hp0 hp1
      refine ⟨roundPad_sum_close _ _ _ _ rfl,
        fun _ => ⟨a, b, rfl, rfl, rfl⟩, ?_, ?_, ?_, ?_⟩ <;> intros <;> simp_all
    · obtain ⟨hS, hp0, hp1⟩ := HousingCabinet.checkAxis_some _ _ _ _ _ _ _ h
      subst hS hp0 hp1
      refine ⟨roundPad_sum_close _ _ _ _ (by ring), ?_, ?_, ?_, ?_, ?_⟩ <;>
        intros <;> simp_all
    · obtain ⟨hS, hp0, hp1⟩ := HousingCabinet.checkAxis_some _ _ _ _ _ _ _ h
      subst hS hp0 hp1
      refine ⟨roundPad_sum_close _ _ _ _ (by ring), ?_, ?_, ?_, ?_, ?_⟩ <;>
        intros <;> simp_all
    · obtain ⟨hS, hp0, hp1⟩ := HousingCabinet.checkAxis_some _ _ _ _ _ _ _ h
      subst hS hp0 hp1
      refine ⟨roundPad_sum_close _ _ _ _ (by ring), ?_, ?_, ?_, ?_, ?_⟩ <;>
        intros <;> simp_all
    · split_ifs at h with hvalid
      obtain ⟨hS, hp0, hp1⟩ := HousingCabinet.checkAxis_some _ _ _ _ _ _ _ h
      subst hS hp0 hp1
      refine ⟨roundPad_sum_close _ _ _ _ hvalid.symm, ?_, ?_, ?_, ?_, ?_⟩ <;>
        intros <;> simp_all
  · intro hsz hp
    subst hsz
    rcases p0? with _ | a <;> rcases p1? with _ | b <;>
      simp only [HousingCabinet.resolveAxis]
    rcases hp with hp | hp <;> exact Option.noConfusion hp
  · intro a b c hsz hp0 hp1 hne
    subst hsz hp0 hp1
    simp only [HousingCabinet.resolveAxis, if_neg hne]

/-! ## Door construction: panel-class dispatch (`Cabinet._add_door`) -/

/-- The five concrete panel classes `Cabinet._add_door` can instantiate. -/
inductive CabinetPanelClass where
  | SlabCabinetPanel
  | ShakerCabinetPanel
  | RaisedCabinetPanel
  | DividedWindowCabinetPanel
  | FullWindowedCabinetPanel
deriving DecidableEq

/-- The dispatch of `Cabinet._add_door` on `self.panel_type`:
`.ok (some c)` means a door with panel class `c` is built and attached,
`.ok none` means the method returns without attaching any door
(`panel_type == "no_panel"`), `.error ()` models the raised
`NotImplementedError` for an unrecognized style.  `none` (the Python
value `None`) is treated like `"slab"`. -/
def Cabinet.addDoorPanelClass (panelType : Option String) :
    Except Unit (Option CabinetPanelClass) :=
  if panelType = some "slab" ∨ panelType = none then .ok (some .SlabCabinetPanel)
  else if panelType = some "shaker" then .ok (some .ShakerCabinetPanel)
  else if panelType = some "raised" then .ok (some .RaisedCabinetPanel)
  else if panelType = some "divided_window" then .ok (some .DividedWindowCabinetPanel)
  else if panelType = some "full_window" then .ok (some .FullWindowedCabinetPanel)
  else if panelType = some "no_panel" then .ok none
  else .error ()

/-- C7: `_add_door` dispatches to exactly one of the five panel classes
for the five recognized styles (with Python `None` treated as slab),
attaches no door at all for the `"no_panel"` style, and fails fast with an
unsupported-style error for every other style. -/
theorem Cabinet.addDoorPanelClass_dispatch (panelType : Option String) :
    (Cabinet.addDoorPanelClass panelType = .ok none ↔ panelType = some "no_panel")
    ∧ ((∃ c, Cabinet.addDoorPanelClass panelType = .ok (some c)) ↔
        (panelType = none ∨ panelType = some "slab" ∨ panelType = some "shaker"
          ∨ panelType = some "raised" ∨ panelType = some "divided_window"
          ∨ panelType = some "full_window"))
    ∧ (Cabinet.addDoorPanelClass panelType = .error () ↔
        (panelType ≠ none ∧ panelType ≠ some "slab" ∧ panelType ≠ some "shaker"
          ∧ panelType ≠ some "raised" ∧ panelType ≠ some "divided_window"
          ∧ panelType ≠ some "full_window" ∧ panelType ≠ some "no_panel")) := by
  rcases panelType with _ | s
  · simp [Cabinet.addDoorPanelClass]
  · simp only [Cabinet.addDoorPanelClass]
    by_cases h1 : s = "slab"
    · subst h1; simp
    by_cases h2 : s = "shaker"
    · subst h2; simp
    by_cases h3 : s = "raised"
    · subst h3; simp
    by_cases h4 : s = "divided_window"
    · subst h4; simp
    by_cases h5 : s = "full_window"
    · subst h5; simp
    by_cases h6 : s = "no_panel"
    · subst h6; simp
    · simp_all

/-! ## Open shelving: reset regions (`OpenCabinet.get_reset_regions` /
`OpenCabinet.sample_reset_region`) -/

/-- The module-level constant `SHELF_SECTIONS`. -/
def SHELF_SECTIONS : List String := ["section_1", "section_2", "section_3", "section_4"]

/-- The region dictionary key built by both `get_reset_regions` and
`sample_reset_region`: the Python f-string `shelf_{i}_{section}`. -/
def OpenCabinet.regionKey (i : ℕ) (sec : String) : String :=
  "shelf_" ++ Nat.repr i ++ "_" ++ sec

/-- A reset region: a placement offset and a 2-D surface size. -/
structure ResetRegion where
  offset : Vec3
  size : ℚ × ℚ
deriving DecidableEq

/-- The region of shelf `i`, section index `j`, from
`OpenCabinet.get_reset_regions`: `section_width = (x - 2 th) / 4`,
`x_offset = -x/2 + th + j * section_width + section_width / 2`,
offset `(x_offset, 0, z_pos + th)`, size
`(section_width * 0.8, y - 2 th)`. -/
def OpenCabinet.shelfSectionRegion (w d h t : ℚ) (N i j : ℕ) : ResetRegion :=
  let sw := (w - 2*t) / (SHELF_SECTIONS.length : ℚ)
  { offset := ⟨-(w/2) + t + (j : ℚ) * sw + sw/2, 0, OpenCabinet.shelfZ N h t i + t⟩
    size := (sw * (4/5), d - 2*t) }

/-- The full region dictionary of `OpenCabinet.get_reset_regions` (as an
association list in insertion order: shelves outer, sections inner). -/
def OpenCabinet.getResetRegions (w d h t : ℚ) (N : ℕ) : List (String × ResetRegion) :=
  ((List.range N).map (fun i =>
    SHELF_SECTIONS.enum.map (fun p =>
      (OpenCabinet.regionKey i p.2, OpenCabinet.shelfSectionRegion w d h t N i p.1)))).flatten

/-- `OpenCabinet.sample_reset_region` once the shelf index and section have
been resolved from the keyword arguments: return the requested region when
its key is present, else the region stored under `"shelf_0_section_1"`
(`none` models the `KeyError` raised when even that key is absent). -/
def OpenCabinet.sampleResetRegion (w d h t : ℚ) (N shelfIndex : ℕ) (sec : String) :
    Option ResetRegion :=
  match (OpenCabinet.getResetRegions w d h t N).lookup
      (OpenCabinet.regionKey shelfIndex sec) with
  | some r => some r
  | none => (OpenCabinet.getResetRegions w d h t N).lookup "shelf_0_section_1"

/-- C9: for open shelving with at least one shelf, a reset-region request
whose `(shelf_index, section)` key is present in the derived region set
returns its own region, and a request whose key is absent returns the
region of shelf 0, section 1 instead of failing. -/
theorem OpenCabinet.sampleResetRegion_fallback (w d h t : ℚ) (N sIdx : ℕ)
    (sec : String) (hN : 1 ≤ N) :
    (∀ r, (OpenCabinet.getResetRegions w d h t N).lookup
        (OpenCabinet.regionKey sIdx sec) = some r →
      OpenCabinet.sampleResetRegion w d h t N sIdx sec = some r)
    ∧ ((OpenCabinet.getResetRegions w d h t N).lookup
        (OpenCabinet.regionKey sIdx sec) = none →
      OpenCabinet.sampleResetRegion w d h t N sIdx sec
        = some (OpenCabinet.shelfSectionRegion w d h t N 0 0)) := by
  obtain ⟨m, rfl⟩ : ∃ m, N = m + 1 := ⟨N - 1, (Nat.succ_pred_eq_of_pos hN).symm⟩
  have hdef : (OpenCabinet.getResetRegions w d h t (m+1)).lookup "shelf_0_section_1"
      = some (OpenCabinet.shelfSectionRegion w d h t (m+1) 0 0) := by
    unfold OpenCabinet.getResetRegions
    rw [List.range_succ_eq_map]
    simp only [List.map_cons, List.flatten_cons]
    rfl
  constructor
  · intro r hr
    unfold OpenCabinet.sampleResetRegion
    rw [hr]
  · intro hr
    unfold OpenCabinet.sampleResetRegion
    rw [hr, hdef]

/-- C9 witness: with one shelf (`N = 1`) and unit-ish dimensions, the
out-of-range request `(shelf 5, section_1)` falls back to the region of
shelf 0, section 1. -/
theorem OpenCabinet.sampleResetRegion_fallback_witness :
    OpenCabinet.sampleResetRegion 1 1 1 (1/10) 1 5 "section_1"
      = some (OpenCabinet.shelfSectionRegion 1 1 1 (1/10) 1 0 0) :=
  (OpenCabinet.sampleResetRegion_fallback 1 1 1 (1/10) 1 5 "section_1"
    (by norm_num)).2 (by rfl)

/-! ## Kinematic state mapping (`set_door_state` / `get_door_state`)

Joint values live in `ℝ` because the hinge range is `[0, np.pi / 2]`.
`env.sim` is modelled as a map from joint names to values and
`rng.uniform(lo, hi)` by `lo + (hi - lo) * u` for an externally supplied
unit sample `u ∈ [0, 1]`. -/

noncomputable section

/-- The mujoco joint state: joint name → joint value. -/
def JointState := String → ℝ

/-- `env.sim.data.set_joint_qpos(name, value)`. -/
def setJointQpos (s : JointState) (n : String) (v : ℝ) : JointState :=
  fun m => if m = n then v else s m

/-- `rng.uniform(lo, hi)` with the unit sample `u` made explicit. -/
def uniform (lo hi u : ℝ) : ℝ := lo + (hi - lo) * u

/-- Modelled from the spec: `OU.normalize_joint_value` comes from
`robocasa.utils.object_utils`, which is not among the source files; per
the spec, `get_door_state` is the inverse read of the linear
fraction-to-joint map, "joint value → normalized fraction via the same
linear map". -/
def normalize_joint_value (v jmin jmax : ℝ) : ℝ := (v - jmin) / (jmax - jmin)

/-- A single cabinet's opening direction, `"left"` or `"right"`. -/
inductive CabOrientation where
  | left
  | right
deriving DecidableEq

/-- The sign factor `-1 if self.orientation == "left" else 1` used by both
`SingleCabinet.set_door_state` and `SingleCabinet.get_door_state`. -/
def orientationSign : CabOrientation → ℝ
  | .left => -1
  | .right => 1

/-- The joint value `SingleCabinet.set_door_state` writes:
`joint_min = 0`, `joint_max = np.pi / 2`,
`desired_min = joint_min + (joint_max - joint_min) * min` (same for max),
then `sign * rng.uniform(desired_min, desired_max)`. -/
def SingleCabinet.doorJointValue (ori : CabOrientation) (mn mx u : ℝ) : ℝ :=
  orientationSign ori *
    uniform (0 + (Real.pi/2 - 0) * mn) (0 + (Real.pi/2 - 0) * mx) u

/-- `SingleCabinet.set_door_state(min, max, env, rng)`: the leading
`assert 0 <= min <= 1 and 0 <= max <= 1 and min <= max` is modelled by the
guard (`none` = `AssertionError`, nothing written); on success the value
is written to joint `{name}_doorhinge`. -/
def SingleCabinet.setDoorState (name : String) (ori : CabOrientation)
    (mn mx u : ℝ) (s : JointState) : Option JointState :=
  if 0 ≤ mn ∧ mn ≤ 1 ∧ 0 ≤ mx ∧ mx ≤ 1 ∧ mn ≤ mx then
    some (setJointQpos s (name ++ "_doorhinge")
      (SingleCabinet.doorJointValue ori mn mx u))
  else none

/-- `SingleCabinet.get_door_state`: reads joint `{name}_doorhinge`,
multiplies by the orientation sign, and normalizes over `[0, np.pi / 2]`. -/
def SingleCabinet.getDoorState (name : String) (ori : CabOrientation)
    (s : JointState) : ℝ :=
  normalize_joint_value (s (name ++ "_doorhinge") * orientationSign ori)
    0 (Real.pi/2)

/-- `HingeCabinet.set_door_state(min, max, env, rng)`: after the same
assert, writes `rng.uniform(desired_min, desired_max)` to
`{name}_rightdoorhinge` and `-rng.uniform(desired_min, desired_max)` — a
second, independent draw — to `{name}_leftdoorhinge`. -/
def HingeCabinet.setDoorState (name : String) (mn mx u1 u2 : ℝ)
    (s : JointState) : Option JointState :=
  if 0 ≤ mn ∧ mn ≤ 1 ∧ 0 ≤ mx ∧ mx ≤ 1 ∧ mn ≤ mx then
    some (setJointQpos
      (setJointQpos s (name ++ "_rightdoorhinge")
        (uniform (0 + (Real.pi/2 - 0) * mn) (0 + (Real.pi/2 - 0) * mx) u1))
      (name ++ "_leftdoorhinge")
      (-(uniform (0 + (Real.pi/2 - 0) * mn) (0 + (Real.pi/2 - 0) * mx) u2)))
  else none

/-- `HingeCabinet.get_door_state`: `(left_door, right_door)` fractions,
the left joint value negated before normalizing over `[0, np.pi / 2]`. -/
def HingeCabinet.getDoorState (name : String) (s : JointState) : ℝ × ℝ :=
  (normalize_joint_value (-(s (name ++ "_leftdoorhinge"))) 0 (Real.pi/2),
   normalize_joint_value (s (name ++ "_rightdoorhinge")) 0 (Real.pi/2))

/-- The joint value `Drawer.set_door_state` writes: `joint_min = 0`,
`joint_max = self.size[1] * 0.55`, `sign = -1`, value
`sign * rng.uniform(desired_min, desired_max)`. -/
def Drawer.doorJointValue (depth mn mx u : ℝ) : ℝ :=
  -1 * uniform (0 + (depth * 0.55 - 0) * mn) (0 + (depth * 0.55 - 0) * mx) u

/-- `Drawer.set_door_state(min, max, env, rng)` writing to joint
`{name}_slidejoint` after the same assert. -/
def Drawer.setDoorState (name : String) (depth mn mx u : ℝ)
    (s : JointState) : Option JointState :=
  if 0 ≤ mn ∧ mn ≤ 1 ∧ 0 ≤ mx ∧ mx ≤ 1 ∧ mn ≤ mx then
    some (setJointQpos s (name ++ "_slidejoint")
      (Drawer.doorJointValue depth mn mx u))
  else none

/-- `Drawer.get_door_state`: reads joint `{name}_slidejoint`, multiplies
by `sign = -1`, and normalizes over `[0, self.size[1] * 0.55]`. -/
def Drawer.getDoorState (name : String) (depth : ℝ) (s : JointState) : ℝ :=
  normalize_joint_value (s (name ++ "_slidejoint") * (-1)) 0 (depth * 0.55)

/-- Appending to a fixed string on the left is injective. -/
theorem string_append_right_inj (s a b : String) (h : s ++ a = s ++ b) :
    a = b := by
  have hd : (s ++ a).data = (s ++ b).data := by rw [h]
  rw [String.data_append, String.data_append] at hd
  exact String.ext (List.append_cancel_left hd)

/-- The two hinge-door joint names of one fixture are distinct. -/
theorem hinge_key_ne (name : String) :
    name ++ "_rightdoorhinge" ≠ name ++ "_leftdoorhinge" := by
  intro h
  have := string_append_right_inj _ _ _ h
  exact absurd this (by decide)

end

/-- Reading back the joint just written. -/
theorem setJointQpos_self (s : JointState) (n : String) (v : ℝ) :
    setJointQpos s n v n = v := by
  unfold setJointQpos
  rw [if_pos rfl]

/-- Writing one joint leaves every other joint unchanged. -/
theorem setJointQpos_other (s : JointState) (n m : String) (v : ℝ) (h : m ≠ n) :
    setJointQpos s n v m = s m := by
  unfold setJointQpos
  rw [if_neg h]

/-- A degenerate uniform draw (`min = max = f`) normalizes back to `f`
over the hinge range `[0, np.pi / 2]`. -/
theorem normalize_uniform_same_halfpi (f u : ℝ) :
    normalize_joint_value
      (uniform (0 + (Real.pi/2 - 0) * f) (0 + (Real.pi/2 - 0) * f) u)
      0 (Real.pi/2) = f := by
  have hpi : (Real.pi : ℝ) ≠ 0 := Real.pi_ne_zero
  unfold normalize_joint_value uniform
  field_simp

/-- C1: for every movable variant (single-door cabinet, double-door hinge
cabinet, drawer) and every fraction `f ∈ [0, 1]`, `set_door_state` with
`min = max = f` succeeds (the uniform sample collapses to `f`) and
`get_door_state` then returns exactly `f` for each door. -/
theorem set_get_door_state_roundtrip (name : String) (ori : CabOrientation)
    (f u u1 u2 depth : ℝ) (s : JointState)
    (hf0 : 0 ≤ f) (hf1 : f ≤ 1) (hd : 0 < depth) :
    (∃ s1, SingleCabinet.setDoorState name ori f f u s = some s1
      ∧ SingleCabinet.getDoorState name ori s1 = f)
    ∧ (∃ s2, HingeCabinet.setDoorState name f f u1 u2 s = some s2
      ∧ HingeCabinet.getDoorState name s2 = (f, f))
    ∧ (∃ s3, Drawer.setDoorState name depth f f u s = some s3
      ∧ Drawer.getDoorState name depth s3 = f) := by
  have hpre : 0 ≤ f ∧ f ≤ 1 ∧ 0 ≤ f ∧ f ≤ 1 ∧ f ≤ f := ⟨hf0, hf1, hf0, hf1, le_refl f⟩
  have hpi : (Real.pi : ℝ) ≠ 0 := Real.pi_ne_zero
  have hdepth : depth * (0.55 : ℝ) ≠ 0 := by positivity
  refine ⟨⟨setJointQpos s (name ++ "_doorhinge")
      (SingleCabinet.doorJointValue ori f f u), ?_, ?_⟩,
    ⟨setJointQpos
      (setJointQpos s (name ++ "_rightdoorhinge")
        (uniform (0 + (Real.pi/2 - 0) * f) (0 + (Real.pi/2 - 0) * f) u1))
      (name ++ "_leftdoorhinge")
      (-(uniform (0 + (Real.pi/2 - 0) * f) (0 + (Real.pi/2 - 0) * f) u2)), ?_, ?_⟩,
    ⟨setJointQpos s (name ++ "_slidejoint")
      (Drawer.doorJointValue depth f f u), ?_, ?_⟩⟩
  · unfold SingleCabinet.setDoorState
    rw [if_pos hpre]
  · unfold SingleCabinet.getDoorState
    rw [setJointQpos_self]
    unfold SingleCabinet.doorJointValue
    cases ori <;>
      · simp only [orientationSign]
        unfold normalize_joint_value uniform
        field_simp
  · unfold HingeCabinet.setDoorState
    rw [if_pos hpre]
  · unfold HingeCabinet.getDoorState
    rw [setJointQpos_self, setJointQpos_other _ _ _ _ (hinge_key_ne name),
      setJointQpos_self, neg_neg, normalize_uniform_same_halfpi,
      normalize_uniform_same_halfpi]
  · unfold Drawer.setDoorState
    rw [if_pos hpre]
  · unfold Drawer.getDoorState
    rw [setJointQpos_self]
    unfold Drawer.doorJointValue normalize_joint_value uniform
    field_simp

/-- C1 witness: the round trip evaluated at `f = 1/2` for a right-opening
single cabinet, a hinge cabinet and a drawer of depth `1`, all named
`cab`, starting from the all-zero joint state. -/
theorem set_get_door_state_roundtrip_witness :
    (∃ s1, SingleCabinet.setDoorState "cab" .right (1/2) (1/2) 0 (fun _ => 0) = some s1
      ∧ SingleCabinet.getDoorState "cab" .right s1 = 1/2)
    ∧ (∃ s2, HingeCabinet.setDoorState "cab" (1/2) (1/2) 0 0 (fun _ => 0) = some s2
      ∧ HingeCabinet.getDoorState "cab" s2 = (1/2, 1/2))
    ∧ (∃ s3, Drawer.setDoorState "cab" 1 (1/2) (1/2) 0 (fun _ => 0) = some s3
      ∧ Drawer.getDoorState "cab" 1 s3 = 1/2) :=
  set_get_door_state_roundtrip "cab" .right (1/2) 0 0 0 1 (fun _ => 0)
    (by norm_num) (by norm_num) (by norm_num)

/-- Fraction 1 read back through `SingleCabinet.get_door_state` after a
degenerate `min = max = f` write, for either orientation. -/
theorem single_get_after_set (name : String) (ori : CabOrientation)
    (f u : ℝ) (s : JointState) :
    SingleCabinet.getDoorState name ori
      (setJointQpos s (name ++ "_doorhinge")
        (SingleCabinet.doorJointValue ori f f u)) = f := by
  have hpi : (Real.pi : ℝ) ≠ 0 := Real.pi_ne_zero
  unfold SingleCabinet.getDoorState
  rw [setJointQpos_self]
  unfold SingleCabinet.doorJointValue
  cases ori <;>
    · simp only [orientationSign]
      unfold normalize_joint_value uniform
      field_simp

/-- C2: with `min = max = 1`, the single cabinet writes hinge value
`-(pi/2)` for orientation left and `pi/2` for orientation right — opposite
sign, identical magnitude — and `get_door_state` applies the same
orientation sign, reading back fraction `1` in both cases. -/
theorem single_set_fraction_one_orientationSign (name : String) (u v : ℝ)
    (s : JointState) :
    SingleCabinet.doorJointValue .left 1 1 u = -(Real.pi/2)
    ∧ SingleCabinet.doorJointValue .right 1 1 v = Real.pi/2
    ∧ SingleCabinet.doorJointValue .left 1 1 u
        = -(SingleCabinet.doorJointValue .right 1 1 v)
    ∧ |SingleCabinet.doorJointValue .left 1 1 u|
        = |SingleCabinet.doorJointValue .right 1 1 v|
    ∧ (∀ s1, SingleCabinet.setDoorState name .left 1 1 u s = some s1 →
        SingleCabinet.getDoorState name .left s1 = 1)
    ∧ (∀ s1, SingleCabinet.setDoorState name .right 1 1 v s = some s1 →
        SingleCabinet.getDoorState name .right s1 = 1) := by
  have hL : SingleCabinet.doorJointValue .left 1 1 u = -(Real.pi/2) := by
    simp only [SingleCabinet.doorJointValue, orientationSign, uniform]
    ring
  have hR : SingleCabinet.doorJointValue .right 1 1 v = Real.pi/2 := by
    simp only [SingleCabinet.doorJointValue, orientationSign, uniform]
    ring
  have hpre : (0:ℝ) ≤ 1 ∧ (1:ℝ) ≤ 1 ∧ (0:ℝ) ≤ 1 ∧ (1:ℝ) ≤ 1 ∧ (1:ℝ) ≤ 1 := by
    norm_num
  refine ⟨hL, hR, by rw [hL, hR], by rw [hL, hR, abs_neg], ?_, ?_⟩
  · intro s1 h1
    unfold SingleCabinet.setDoorState at h1
    rw [if_pos hpre] at h1
    injection h1 with h1
    rw [← h1]
    exact single_get_after_set name .left 1 u s
  · intro s1 h1
    unfold SingleCabinet.setDoorState at h1
    rw [if_pos hpre] at h1
    injection h1 with h1
    rw [← h1]
    exact single_get_after_set name .right 1 v s

/-- C3: the drawer maps a (degenerate) sampled fraction `f` to joint value
`-(f * (0.55 * d))`; fraction `1` pulls the drawer out by exactly
`0.55 * d`, strictly less than the full depth `d`; `get_door_state`
divides the sign-corrected joint value by the same `0.55 * d` range, so
the round trip returns `f`. -/
theorem drawer_slide_fiftyfive_percent (name : String) (depth f u : ℝ)
    (s : JointState) (h0 : 0 ≤ f) (h1 : f ≤ 1) (hd : 0 < depth) :
    Drawer.doorJointValue depth f f u = -(f * (0.55 * depth))
    ∧ Drawer.doorJointValue depth 1 1 u = -(0.55 * depth)
    ∧ |Drawer.doorJointValue depth 1 1 u| < depth
    ∧ (∀ q, Drawer.getDoorState name depth (setJointQpos s (name ++ "_slidejoint") q)
        = (q * (-1) - 0) / (depth * 0.55 - 0))
    ∧ (∃ s1, Drawer.setDoorState name depth f f u s = some s1
        ∧ Drawer.getDoorState name depth s1 = f) := by
  have hv : ∀ g w : ℝ, Drawer.doorJointValue depth g g w = -(g * (0.55 * depth)) := by
    intro g w
    simp only [Drawer.doorJointValue, uniform]
    ring
  have hdepth : depth * (0.55 : ℝ) ≠ 0 := by positivity
  refine ⟨hv f u, ?_, ?_, ?_, ?_⟩
  · rw [hv 1 u]
    ring
  · rw [hv 1 u, abs_neg, abs_of_nonneg (by nlinarith)]
    nlinarith
  · intro q
    unfold Drawer.getDoorState
    rw [setJointQpos_self]
    rfl
  · refine ⟨setJointQpos s (name ++ "_slidejoint")
      (Drawer.doorJointValue depth f f u), ?_, ?_⟩
    · unfold Drawer.setDoorState
      rw [if_pos ⟨h0, h1, h0, h1, le_refl f⟩]
    · unfold Drawer.getDoorState
      rw [setJointQpos_self]
      unfold Drawer.doorJointValue normalize_joint_value uniform
      field_simp

/-- C3 witness: the drawer facts evaluated at depth `1`, fraction `1/2`,
fixture name `cab`, from the all-zero joint state. -/
theorem drawer_slide_fiftyfive_percent_witness :
    Drawer.doorJointValue 1 (1/2) (1/2) 0 = -((1/2) * (0.55 * 1))
    ∧ Drawer.doorJointValue 1 1 1 0 = -(0.55 * 1)
    ∧ |Drawer.doorJointValue 1 1 1 0| < 1
    ∧ (∀ q, Drawer.getDoorState "cab" 1 (setJointQpos (fun _ => 0) ("cab" ++ "_slidejoint") q)
        = (q * (-1) - 0) / (1 * 0.55 - 0))
    ∧ (∃ s1, Drawer.setDoorState "cab" 1 (1/2) (1/2) 0 (fun _ => 0) = some s1
        ∧ Drawer.getDoorState "cab" 1 s1 = 1/2) :=
  drawer_slide_fiftyfive_percent "cab" 1 (1/2) 0 (fun _ => 0)
    (by norm_num) (by norm_num) (by norm_num)

/-- C8 counterexample: `HingeCabinet.set_door_state(0, 1)` draws two
independent uniform samples; with the first sample `0` and the second `1`
the right hinge gets `0` and the left hinge gets `-(pi/2)` — the
magnitudes differ, so a single shared fraction with mirrored values of
identical magnitude is not what the code writes. -/
theorem hinge_set_two_samples_not_mirrored :
    ∃ s1, HingeCabinet.setDoorState "cab" 0 1 0 1 (fun _ => 0) = some s1
      ∧ s1 ("cab" ++ "_rightdoorhinge") = 0
      ∧ s1 ("cab" ++ "_leftdoorhinge") = -(Real.pi/2)
      ∧ ¬ |s1 ("cab" ++ "_leftdoorhinge")| = |s1 ("cab" ++ "_rightdoorhinge")| := by
  have hu1 : uniform (0 + (Real.pi/2 - 0) * 0) (0 + (Real.pi/2 - 0) * 1) (0:ℝ) = 0 := by
    simp only [uniform]
    ring
  have hu2 : uniform (0 + (Real.pi/2 - 0) * 0) (0 + (Real.pi/2 - 0) * 1) (1:ℝ)
      = Real.pi/2 := by
    simp only [uniform]
    ring
  refine ⟨setJointQpos
      (setJointQpos (fun _ => 0) ("cab" ++ "_rightdoorhinge")
        (uniform (0 + (Real.pi/2 - 0) * 0) (0 + (Real.pi/2 - 0) * 1) 0))
      ("cab" ++ "_leftdoorhinge")
      (-(uniform (0 + (Real.pi/2 - 0) * 0) (0 + (Real.pi/2 - 0) * 1) 1)), ?_, ?_, ?_, ?_⟩
  · unfold HingeCabinet.setDoorState
    rw [if_pos (by norm_num)]
  · rw [setJointQpos_other _ _ _ _ (hinge_key_ne "cab"), setJointQpos_self, hu1]
  · rw [setJointQpos_self, hu2]
  · rw [setJointQpos_self, hu2,
      setJointQpos_other _ _ _ _ (hinge_key_ne "cab"), setJointQpos_self, hu1,
      abs_neg, abs_zero, abs_of_pos (by positivity : (0:ℝ) < Real.pi/2)]
    exact ne_of_gt (by positivity)

/-- C8 (amended): `HingeCabinet.set_door_state(min, max)` draws two
independent uniform fractions, one per door, each in `[min, max]`; the
right hinge receives the positive angle `pi/2 · c1` and the left hinge the
negated angle `-(pi/2 · c2)`; when `min = max` the two samples coincide,
so the doors are mirrored with identical magnitude. -/
theorem hinge_set_mirrored_signs (name : String) (mn mx u1 u2 : ℝ)
    (s : JointState) (h0 : 0 ≤ mn) (h1 : mn ≤ mx) (h2 : mx ≤ 1)
    (hu10 : 0 ≤ u1) (hu11 : u1 ≤ 1) (hu20 : 0 ≤ u2) (hu21 : u2 ≤ 1) :
    ∃ s1, HingeCabinet.setDoorState name mn mx u1 u2 s = some s1
      ∧ s1 (name ++ "_rightdoorhinge") = Real.pi/2 * (mn + (mx - mn) * u1)
      ∧ s1 (name ++ "_leftdoorhinge") = -(Real.pi/2 * (mn + (mx - mn) * u2))
      ∧ 0 ≤ s1 (name ++ "_rightdoorhinge")
      ∧ s1 (name ++ "_leftdoorhinge") ≤ 0
      ∧ mn ≤ mn + (mx - mn) * u1 ∧ mn + (mx - mn) * u1 ≤ mx
      ∧ mn ≤ mn + (mx - mn) * u2 ∧ mn + (mx - mn) * u2 ≤ mx
      ∧ (mn = mx →
          s1 (name ++ "_leftdoorhinge") = -(s1 (name ++ "_rightdoorhinge"))) := by
  have hpihalf : (0:ℝ) ≤ Real.pi/2 := by positivity
  have hb1 : mn ≤ mn + (mx - mn) * u1 := by nlinarith
  have hb2 : mn + (mx - mn) * u1 ≤ mx := by nlinarith
  have hb3 : mn ≤ mn + (mx - mn) * u2 := by nlinarith
  have hb4 : mn + (mx - mn) * u2 ≤ mx := by nlinarith
  have hv : ∀ w : ℝ, uniform (0 + (Real.pi/2 - 0) * mn) (0 + (Real.pi/2 - 0) * mx) w
      = Real.pi/2 * (mn + (mx - mn) * w) := by
    intro w
    simp only [uniform]
    ring
  refine ⟨setJointQpos
      (setJointQpos s (name ++ "_rightdoorhinge")
        (uniform (0 + (Real.pi/2 - 0) * mn) (0 + (Real.pi/2 - 0) * mx) u1))
      (name ++ "_leftdoorhinge")
      (-(uniform (0 + (Real.pi/2 - 0) * mn) (0 + (Real.pi/2 - 0) * mx) u2)),
    ?_, ?_, ?_, ?_, ?_, hb1, hb2, hb3, hb4, ?_⟩
  · unfold HingeCabinet.setDoorState
    rw [if_pos ⟨h0, h1.trans h2, h0.trans h1, h2, h1⟩]
  · rw [setJointQpos_other _ _ _ _ (hinge_key_ne name), setJointQpos_self, hv]
  · rw [setJointQpos_self, hv]
  · rw [setJointQpos_other _ _ _ _ (hinge_key_ne name), setJointQpos_self, hv]
    exact mul_nonneg hpihalf (h0.trans hb1)
  · rw [setJointQpos_self, hv]
    exact neg_nonpos_of_nonneg (mul_nonneg hpihalf (h0.trans hb3))
  · intro hmm
    subst hmm
    rw [setJointQpos_self, setJointQpos_other _ _ _ _ (hinge_key_ne name),
      setJointQpos_self, hv, hv]
    ring

/-- C8 witness: the amended facts evaluated at `min = max = 1/2`, samples
`0` and `1`, fixture name `cab`, from the all-zero joint state. -/
theorem hinge_set_mirrored_signs_witness :
    ∃ s1, HingeCabinet.setDoorState "cab" (1/2) (1/2) 0 1 (fun _ => 0) = some s1
      ∧ s1 ("cab" ++ "_rightdoorhinge") = Real.pi/2 * (1/2 + (1/2 - 1/2) * 0)
      ∧ s1 ("cab" ++ "_leftdoorhinge") = -(Real.pi/2 * (1/2 + (1/2 - 1/2) * 1))
      ∧ 0 ≤ s1 ("cab" ++ "_rightdoorhinge")
      ∧ s1 ("cab" ++ "_leftdoorhinge") ≤ 0
      ∧ (1:ℝ)/2 ≤ 1/2 + (1/2 - 1/2) * 0 ∧ (1:ℝ)/2 + (1/2 - 1/2) * 0 ≤ 1/2
      ∧ (1:ℝ)/2 ≤ 1/2 + (1/2 - 1/2) * 1 ∧ (1:ℝ)/2 + (1/2 - 1/2) * 1 ≤ 1/2
      ∧ ((1:ℝ)/2 = 1/2 →
          s1 ("cab" ++ "_leftdoorhinge") = -(s1 ("cab" ++ "_rightdoorhinge"))) :=
  hinge_set_mirrored_signs "cab" (1/2) (1/2) 0 1 (fun _ => 0)
    (by norm_num) (by norm_num) (by norm_num) (by norm_num) (by norm_num)
    (by norm_num) (by norm_num)

/-- C10: all three movable variants guard `set_door_state` with
`assert 0 <= min <= 1 and 0 <= max <= 1 and min <= max` — equivalent to
`0 ≤ min ≤ max ≤ 1` — before writing any joint: when it fails the call
raises (`none`) and no state is produced; when it holds a write happens. -/
theorem set_door_state_precondition (name : String) (ori : CabOrientation)
    (depth mn mx u u1 u2 : ℝ) (s : JointState) :
    ((0 ≤ mn ∧ mn ≤ 1 ∧ 0 ≤ mx ∧ mx ≤ 1 ∧ mn ≤ mx) ↔
      (0 ≤ mn ∧ mn ≤ mx ∧ mx ≤ 1))
    ∧ (¬ (0 ≤ mn ∧ mn ≤ mx ∧ mx ≤ 1) →
        SingleCabinet.setDoorState name ori mn mx u s = none
        ∧ HingeCabinet.setDoorState name mn mx u1 u2 s = none
        ∧ Drawer.setDoorState name depth mn mx u s = none)
    ∧ ((0 ≤ mn ∧ mn ≤ mx ∧ mx ≤ 1) →
        (SingleCabinet.setDoorState name ori mn mx u s).isSome
        ∧ (HingeCabinet.setDoorState name mn mx u1 u2 s).isSome
        ∧ (Drawer.setDoorState name depth mn mx u s).isSome) := by
  have hiff : (0 ≤ mn ∧ mn ≤ 1 ∧ 0 ≤ mx ∧ mx ≤ 1 ∧ mn ≤ mx) ↔
      (0 ≤ mn ∧ mn ≤ mx ∧ mx ≤ 1) := by
    constructor
    · rintro ⟨a, b, c, d, e⟩
      exact ⟨a, e, d⟩
    · rintro ⟨a, b, c⟩
      exact ⟨a, b.trans c, a.trans b, c, b⟩
  refine ⟨hiff, fun hn => ?_, fun hy => ?_⟩
  · have hn5 : ¬ (0 ≤ mn ∧ mn ≤ 1 ∧ 0 ≤ mx ∧ mx ≤ 1 ∧ mn ≤ mx) := fun h =>
      hn (hiff.mp h)
    refine ⟨?_, ?_, ?_⟩
    · unfold SingleCabinet.setDoorState
      rw [if_neg hn5]
    · unfold HingeCabinet.setDoorState
      rw [if_neg hn5]
    · unfold Drawer.setDoorState
      rw [if_neg hn5]
  · have hy5 := hiff.mpr hy
    refine ⟨?_, ?_, ?_⟩
    · unfold SingleCabinet.setDoorState
      rw [if_pos hy5]
      rfl
    · unfold HingeCabinet.setDoorState
      rw [if_pos hy5]
      rfl
    · unfold Drawer.setDoorState
      rw [if_pos hy5]
      rfl

end RoboCasa
